import Mathlib

/-!
Verification of the lazynetgen topology generator (src/lazynetgen/main.py).

The Python core is embedded shallowly:

* IPv4 addresses are `Nat` (their 32-bit numeric value); an `IPv4Net` is the
  pair of its base address and prefix length.  `IPv4Network.__getitem__(k)`
  returns `base + k` for `k < 2 ^ (32 - prefix)` and raises `IndexError`
  otherwise; this is `netIndex`.
* The global `vlans_counter` is threaded explicitly through every
  constructor: each build function takes the current counter and returns the
  updated one.  `VLAN.__init__` increments the counter and derives the /24
  subnet `10.(id div 256).(id mod 256).0/24`; the `ipaddress` module raises
  `ValueError` when the second octet `id div 256` exceeds 255 (`allocVLAN`).
* Fallible Python code is modelled with `Except PyError`: `IndexError` from
  network indexing, `ValueError` from `IPv4Network` construction,
  `AssertionError` from the `assert` in `RoutingTable.remove`.
* `Route` has no `__eq__`/`__hash__` in the source, so Python compares routes
  by object identity.  The builder never compares routes (it only compares
  `dst_network`, and `ipaddress` networks compare by value), so the build
  model uses the plain field record `Route`.  For the claims about route
  equality and `RoutingTable.remove`, `RouteObj` additionally carries the
  object identity as a token that is fresh for each construction
  (`mkRouteObj`).
* The back references `Distribution.site` and `Access.distribution`, which
  would make the object graph cyclic, are dropped: the topology is kept as a
  tree, exactly the data the claims speak about.
* `range(0, k)` for a possibly negative Python `int k` iterates
  `max(k, 0) = k.toNat` times; `mkSiteI` wraps the `Nat` build accordingly.
-/

namespace LazyNetGen

/-- Numeric value of the dotted quad `a.b.c.d`. -/
def ipv4 (a b c d : Nat) : Nat := ((a * 256 + b) * 256 + c) * 256 + d

/-- An IPv4 network: base address plus prefix length. -/
structure IPv4Net where
  base : Nat
  prefixLen : Nat
deriving DecidableEq

/-- The default network `0.0.0.0/0`. -/
def defaultNet : IPv4Net := ⟨0, 0⟩

/-- The Python exceptions the core can raise. -/
inductive PyError where
  | indexError
  | valueError
  | assertionError
deriving DecidableEq

deriving instance DecidableEq for Except

/-- `IPv4Network.__getitem__`: the `k`-th address of the network, or
`IndexError` when `k` is out of range. -/
def netIndex (net : IPv4Net) (k : Nat) : Except PyError Nat :=
  if k < 2 ^ (32 - net.prefixLen) then .ok (net.base + k) else .error .indexError

structure VLAN where
  id : Nat
  network : IPv4Net
deriving DecidableEq

/-- The subnet derived from a VLAN id:
`10.(id div 256).(id mod 256).0/24`. -/
def vlanNet (id : Nat) : IPv4Net := ⟨ipv4 10 (id / 256) (id % 256) 0, 24⟩

/-- `VLAN.__init__`: increment the global counter, derive the subnet.
`IPv4Network` raises `ValueError` when the second octet exceeds 255. -/
def allocVLAN (counter : Nat) : Except PyError (VLAN × Nat) :=
  if (counter + 1) / 256 ≤ 255 then .ok (⟨counter + 1, vlanNet (counter + 1)⟩, counter + 1)
  else .error .valueError

structure RoutedVLAN where
  vlan : VLAN
  ip_address : Nat
deriving DecidableEq

/-- A route as the builder observes it: destination network and next hop. -/
structure Route where
  dst_network : IPv4Net
  next_hop : Nat
deriving DecidableEq

/-- `RoutingTable.add`: unconditional append. -/
def rtAdd {α : Type} (routes : List α) (r : α) : List α := routes ++ [r]

/-- `RoutingTable.remove`: `assert route in self.routes` then
`list.remove`, which deletes the first matching entry. -/
def rtRemove {α : Type} [DecidableEq α] (routes : List α) (r : α) :
    Except PyError (List α) :=
  if r ∈ routes then .ok (routes.erase r) else .error .assertionError

/-- A `Route` object together with its Python object identity: the class
defines no `__eq__`, so `==` falls back to identity, modelled by a token
that is fresh for each construction. -/
structure RouteObj where
  dst_network : IPv4Net
  next_hop : Nat
  tok : Nat
deriving DecidableEq

/-- `Route.__init__` at the object level: the new object carries a fresh
identity token; the next fresh token is returned alongside. -/
def mkRouteObj (dst_network : IPv4Net) (next_hop : Nat) (tok : Nat) :
    RouteObj × Nat :=
  (⟨dst_network, next_hop, tok⟩, tok + 1)

structure Switch where
  name : String
  routed_vlans : List RoutedVLAN
  routing_table : List Route
deriving DecidableEq

/-- `Switch.__init__`: allocate one VLAN, bind the first address of its
subnet as the zeroth routed VLAN, start with an empty routing table. -/
def mkSwitch (name : String) (c : Nat) : Except PyError (Switch × Nat) :=
  match allocVLAN c with
  | .error e => .error e
  | .ok (vlan, c') =>
    match netIndex vlan.network 1 with
    | .error e => .error e
    | .ok ip =>
      .ok ({ name := name, routed_vlans := [⟨vlan, ip⟩], routing_table := [] }, c')

/-- `Access.__init__` (the back reference to the distribution is dropped):
a `Switch` plus an uplink binding into the distribution's VLAN. -/
def mkAccess (name : String) (distribution_vlan : VLAN) (distribution_ip : Nat)
    (c : Nat) : Except PyError (Switch × Nat) :=
  match mkSwitch name c with
  | .error e => .error e
  | .ok (sw, c') =>
    .ok ({ sw with routed_vlans := sw.routed_vlans ++ [⟨distribution_vlan, distribution_ip⟩] }, c')

structure Distribution where
  name : String
  routed_vlans : List RoutedVLAN
  routing_table : List Route
  accesses : List Switch
deriving DecidableEq

/-- The access loop of `Distribution.__init__`, iterating `n` from the given
start for `count` steps: create the access (its uplink address is
`self.routed_vlans[0].vlan.network[n+2]`), record the route to the access's
own subnet in the distribution's table, and give the access a default route
towards the distribution's own address. -/
def accessLoop (distName : String) (dvlan : VLAN) (distIp : Nat) :
    Nat → Nat → Nat → Except PyError (List Switch × List Route × Nat)
  | _, 0, c => .ok ([], [], c)
  | n, count + 1, c =>
    match netIndex dvlan.network (n + 2) with
    | .error e => .error e
    | .ok upIp =>
      match mkAccess (distName ++ "-access-" ++ toString n) dvlan upIp c with
      | .error e => .error e
      | .ok (access, c') =>
        match access.routed_vlans with
        | [] => .error .indexError
        | ownRv :: _ =>
          let route : Route := ⟨ownRv.vlan.network, upIp⟩
          let default_route : Route := ⟨defaultNet, distIp⟩
          let access' := { access with routing_table := rtAdd access.routing_table default_route }
          match accessLoop distName dvlan distIp (n + 1) count c' with
          | .error e => .error e
          | .ok (accs, routes, c'') => .ok (access' :: accs, route :: routes, c'')

/-- `Distribution.__init__` (site back reference dropped): a `Switch`, an
uplink binding into the WAN's VLAN, then the access loop. -/
def mkDistribution (name : String) (num_access : Nat) (wan_vlan : VLAN)
    (wan_ip : Nat) (c : Nat) : Except PyError (Distribution × Nat) :=
  match mkSwitch name c with
  | .error e => .error e
  | .ok (sw, c1) =>
    let rvs := sw.routed_vlans ++ [⟨wan_vlan, wan_ip⟩]
    match rvs with
    | [] => .error .indexError
    | ownRv :: _ =>
      match accessLoop name ownRv.vlan ownRv.ip_address 0 num_access c1 with
      | .error e => .error e
      | .ok (accs, routes, c2) =>
        .ok ({ name := name, routed_vlans := rvs,
               routing_table := sw.routing_table ++ routes, accesses := accs }, c2)

/-- The copy loop of `Site.__init__`: every non-default route of the
distribution's table is re-added to the WAN with the next hop rewritten to
`hop` (the distribution's uplink address). -/
def redistribute (entries : List Route) (hop : Nat) : List Route :=
  match entries with
  | [] => []
  | r :: rs =>
    if r.dst_network = defaultNet then redistribute rs hop
    else ⟨r.dst_network, hop⟩ :: redistribute rs hop

structure Site where
  name : String
  wan : Switch
  distributions : List Distribution
deriving DecidableEq

/-- The distribution loop of `Site.__init__`, iterating `n` from the given
start for `count` steps: create the distribution with uplink address
`wan.routed_vlans[0].vlan.network[2+n]`, append its default route towards
the WAN's own address, and copy its non-default routes up into the WAN's
table. -/
def distLoop (siteName : String) (num_access : Nat) :
    Switch → Nat → Nat → Nat → Except PyError (List Distribution × Switch × Nat)
  | wan, _, 0, c => .ok ([], wan, c)
  | wan, n, count + 1, c =>
    match wan.routed_vlans with
    | [] => .error .indexError
    | wanRv :: _ =>
      match netIndex wanRv.vlan.network (2 + n) with
      | .error e => .error e
      | .ok wanIp =>
        match mkDistribution (siteName ++ "-dist-" ++ toString n) num_access wanRv.vlan wanIp c with
        | .error e => .error e
        | .ok (dist, c1) =>
          let default_route : Route := ⟨defaultNet, wanRv.ip_address⟩
          let dist' := { dist with routing_table := rtAdd dist.routing_table default_route }
          let wan' := { wan with routing_table := wan.routing_table ++ redistribute dist'.routing_table wanIp }
          match distLoop siteName num_access wan' (n + 1) count c1 with
          | .error e => .error e
          | .ok (dists, wanF, c2) => .ok (dist' :: dists, wanF, c2)

/-- `Site.__init__`: create the WAN switch `name-wan-0`, then run the
distribution loop. -/
def mkSite (name : String) (num_distributions num_access : Nat) (c : Nat) :
    Except PyError (Site × Nat) :=
  match mkSwitch (name ++ "-wan-0") c with
  | .error e => .error e
  | .ok (wan, c1) =>
    match distLoop name num_access wan 0 num_distributions c1 with
    | .error e => .error e
    | .ok (dists, wanF, c2) => .ok ({ name := name, wan := wanF, distributions := dists }, c2)

/-- `Site.__init__` for Python `int` inputs: `range(0, k)` iterates
`max(k, 0) = k.toNat` times, so negative counts run the loops zero times. -/
def mkSiteI (name : String) (num_distributions num_access : Int) (c : Nat) :
    Except PyError (Site × Nat) :=
  mkSite name num_distributions.toNat num_access.toNat c

/-! ### Projections used to state the claims -/

def dummyRV : RoutedVLAN := ⟨⟨0, vlanNet 0⟩, 0⟩

/-- `device.routed_vlans[0]`: the binding of the device's own VLAN. -/
def ownRV (s : Switch) : RoutedVLAN := s.routed_vlans.headD dummyRV

/-- A distribution viewed as the plain switch underneath. -/
def Distribution.toSwitch (d : Distribution) : Switch :=
  ⟨d.name, d.routed_vlans, d.routing_table⟩

/-- `distribution.routed_vlans[1]`: the uplink binding into the WAN VLAN. -/
def uplinkRV (d : Distribution) : RoutedVLAN := d.routed_vlans.getD 1 dummyRV

/-- Every device created by a build, in creation order of the tiers. -/
def allDevices (s : Site) : List Switch :=
  s.wan :: s.distributions.flatMap (fun d => d.toSwitch :: d.accesses)

/-- The ids of the VLANs allocated by the devices of a site (each device
allocates exactly one VLAN, its own). -/
def allocIds (s : Site) : List Nat :=
  (allDevices s).map (fun sw => (ownRV sw).vlan.id)

/-- The subnets of the VLANs allocated by the devices of a site. -/
def allocNets (s : Site) : List IPv4Net :=
  (allDevices s).map (fun sw => (ownRV sw).vlan.network)

/-- The site produced by a successful build (dummy on error). -/
def resSite (e : Except PyError (Site × Nat)) : Site :=
  match e with
  | .ok (s, _) => s
  | .error _ => ⟨"", ⟨"", [], []⟩, []⟩

/-- The counter left by a successful build (0 on error). -/
def resCounter (e : Except PyError (Site × Nat)) : Nat :=
  match e with
  | .ok (_, c) => c
  | .error _ => 0

/-- The access switch created in iteration `k` of the access loop started at
index `n` with counter `c`. -/
def expAccess (distName : String) (dvlan : VLAN) (distIp : Nat) (n c k : Nat) : Switch :=
  { name := distName ++ "-access-" ++ toString (n + k)
    routed_vlans := [⟨⟨c + k + 1, vlanNet (c + k + 1)⟩, (vlanNet (c + k + 1)).base + 1⟩,
                     ⟨dvlan, dvlan.network.base + (n + k + 2)⟩]
    routing_table := [⟨defaultNet, distIp⟩] }

/-- The route the distribution learns in iteration `k` of the access loop. -/
def expAccessRoute (dvlan : VLAN) (n c k : Nat) : Route :=
  ⟨vlanNet (c + k + 1), dvlan.network.base + (n + k + 2)⟩

/-- The distribution (with its appended default route) created in iteration
`k` of the distribution loop started at index `n` with counter `c`. -/
def expDistribution (siteName : String) (A : Nat) (wanV : VLAN) (wanIp0 : Nat)
    (n c k : Nat) : Distribution :=
  let dId := c + k * (1 + A) + 1
  let dV : VLAN := ⟨dId, vlanNet dId⟩
  let dname := siteName ++ "-dist-" ++ toString (n + k)
  { name := dname
    routed_vlans := [⟨dV, (vlanNet dId).base + 1⟩,
                     ⟨wanV, wanV.network.base + (2 + (n + k))⟩]
    routing_table := (List.range A).map (expAccessRoute dV 0 dId) ++ [⟨defaultNet, wanIp0⟩]
    accesses := (List.range A).map (expAccess dname dV ((vlanNet dId).base + 1) 0 dId) }

/-- The routes copied up into the WAN table by iteration `k` of the
distribution loop. -/
def expWanRoutes (A : Nat) (wanV : VLAN) (n c k : Nat) : List Route :=
  (List.range A).map
    (fun m => ⟨vlanNet (c + k * (1 + A) + 1 + m + 1), wanV.network.base + (2 + (n + k))⟩)

/-- The full site a successful build from counter `c` produces. -/
def expSite (name : String) (D A c : Nat) : Site :=
  let wanV : VLAN := ⟨c + 1, vlanNet (c + 1)⟩
  { name := name
    wan := { name := name ++ "-wan-0"
             routed_vlans := [⟨wanV, (vlanNet (c + 1)).base + 1⟩]
             routing_table := ((List.range D).map (expWanRoutes A wanV 0 (c + 1))).flatten }
    distributions :=
      (List.range D).map (expDistribution name A wanV ((vlanNet (c + 1)).base + 1) 0 (c + 1)) }

/-- The distribution as returned by `mkDistribution` (before the site adds
the default route). -/
def expDistBase (name : String) (A : Nat) (wanV : VLAN) (wanIp c : Nat) : Distribution :=
  { name := name
    routed_vlans := [⟨⟨c + 1, vlanNet (c + 1)⟩, (vlanNet (c + 1)).base + 1⟩, ⟨wanV, wanIp⟩]
    routing_table := (List.range A).map (expAccessRoute ⟨c + 1, vlanNet (c + 1)⟩ 0 (c + 1))
    accesses := (List.range A).map
      (expAccess name ⟨c + 1, vlanNet (c + 1)⟩ ((vlanNet (c + 1)).base + 1) 0 (c + 1)) }

def dummyDist : Distribution := ⟨"", [], [], []⟩

def dummySwitch : Switch := ⟨"", [], []⟩

/-- `access.routed_vlans[1]`: the uplink binding of an access switch. -/
def uplinkRVs (s : Switch) : RoutedVLAN := s.routed_vlans.getD 1 dummyRV

/-- A two-entry routing table used to exercise `rtRemove`. -/
def c7tbl : List RouteObj := [⟨defaultNet, 5, 0⟩, ⟨defaultNet, 5, 1⟩]

/-! ### Basic lemmas about the allocator and address model -/

lemma sum_map_const {α : Type} (l : List α) (a : Nat) :
    (l.map (fun _ => a)).sum = l.length * a := by
  induction l with
  | nil => simp
  | cons x xs ih =>
    simp only [List.map_cons, List.sum_cons, ih, List.length_cons]
    ring

lemma netIndex_ok_24 {net : IPv4Net} (h24 : net.prefixLen = 24) {k : Nat}
    (hk : k < 256) : netIndex net k = .ok (net.base + k) := by
  unfold netIndex
  rw [h24, if_pos (by norm_num [hk])]

lemma netIndex_ok_inv {net : IPv4Net} {k a : Nat} (h : netIndex net k = .ok a) :
    a = net.base + k ∧ k < 2 ^ (32 - net.prefixLen) := by
  unfold netIndex at h
  split at h
  · exact ⟨(Except.ok.injEq _ _).mp h |>.symm, by assumption⟩
  · cases h

lemma vlanNet_prefixLen (id : Nat) : (vlanNet id).prefixLen = 24 := rfl

lemma vlanNet_injective : Function.Injective vlanNet := by
  intro a b h
  simp only [vlanNet, ipv4, IPv4Net.mk.injEq] at h
  omega

lemma vlanNet_ne_default (id : Nat) : vlanNet id ≠ defaultNet := by
  intro h
  simp only [vlanNet, defaultNet, IPv4Net.mk.injEq] at h
  omega

lemma allocVLAN_ok {c : Nat} (h : c + 1 ≤ 65535) :
    allocVLAN c = .ok (⟨c + 1, vlanNet (c + 1)⟩, c + 1) := by
  unfold allocVLAN
  rw [if_pos (by omega)]

lemma allocVLAN_ok_inv {c : Nat} {v : VLAN} {c' : Nat}
    (h : allocVLAN c = .ok (v, c')) :
    v = ⟨c + 1, vlanNet (c + 1)⟩ ∧ c' = c + 1 ∧ c + 1 ≤ 65535 := by
  unfold allocVLAN at h
  split at h
  · rename_i hcond
    simp only [Except.ok.injEq, Prod.mk.injEq] at h
    exact ⟨h.1.symm, h.2.symm, by omega⟩
  · cases h

lemma mkSwitch_ok {name : String} {c : Nat} (h : c + 1 ≤ 65535) :
    mkSwitch name c =
      .ok ({ name := name,
             routed_vlans := [⟨⟨c + 1, vlanNet (c + 1)⟩, (vlanNet (c + 1)).base + 1⟩],
             routing_table := [] }, c + 1) := by
  have h1 := allocVLAN_ok h
  have h2 := netIndex_ok_24 (vlanNet_prefixLen (c + 1)) (show (1 : Nat) < 256 by norm_num)
  simp only [mkSwitch, h1, h2]

lemma mkSwitch_ok_inv {name : String} {c : Nat} {sw : Switch} {c' : Nat}
    (h : mkSwitch name c = .ok (sw, c')) :
    sw = { name := name,
           routed_vlans := [⟨⟨c + 1, vlanNet (c + 1)⟩, (vlanNet (c + 1)).base + 1⟩],
           routing_table := [] } ∧ c' = c + 1 ∧ c + 1 ≤ 65535 := by
  unfold mkSwitch at h
  split at h
  · cases h
  · rename_i v c₂ halloc
    obtain ⟨hv, hc₂, hle⟩ := allocVLAN_ok_inv halloc
    subst hv hc₂
    split at h
    · cases h
    · rename_i ip hip
      obtain ⟨hipeq, -⟩ := netIndex_ok_inv hip
      subst hipeq
      simp only [Except.ok.injEq, Prod.mk.injEq] at h
      exact ⟨h.1.symm, h.2.symm, hle⟩

lemma mkAccess_ok {name : String} {dvlan : VLAN} {dip c : Nat} (h : c + 1 ≤ 65535) :
    mkAccess name dvlan dip c =
      .ok ({ name := name,
             routed_vlans := [⟨⟨c + 1, vlanNet (c + 1)⟩, (vlanNet (c + 1)).base + 1⟩,
                              ⟨dvlan, dip⟩],
             routing_table := [] }, c + 1) := by
  simp [mkAccess, mkSwitch_ok h]

lemma mkAccess_ok_inv {name : String} {dvlan : VLAN} {dip c : Nat} {sw : Switch}
    {c' : Nat} (h : mkAccess name dvlan dip c = .ok (sw, c')) :
    sw = { name := name,
           routed_vlans := [⟨⟨c + 1, vlanNet (c + 1)⟩, (vlanNet (c + 1)).base + 1⟩,
                            ⟨dvlan, dip⟩],
           routing_table := [] } ∧ c' = c + 1 ∧ c + 1 ≤ 65535 := by
  unfold mkAccess at h
  split at h
  · cases h
  · rename_i sw₀ c₂ hsw
    obtain ⟨hsw₀, hc₂, hle⟩ := mkSwitch_ok_inv hsw
    subst hsw₀ hc₂
    simp only [Except.ok.injEq, Prod.mk.injEq] at h
    exact ⟨h.1.symm, h.2.symm, hle⟩

/-! ### Expected shapes of the objects a successful build produces -/

lemma expAccess_shift (dn : String) (dv : VLAN) (dip n c m : Nat) :
    expAccess dn dv dip (n + 1) (c + 1) m = expAccess dn dv dip n c (m + 1) := by
  simp only [expAccess]
  have e1 : n + 1 + m = n + (m + 1) := by omega
  have e2 : c + 1 + m + 1 = c + (m + 1) + 1 := by omega
  rw [e1, e2]

lemma expAccessRoute_shift (dv : VLAN) (n c m : Nat) :
    expAccessRoute dv (n + 1) (c + 1) m = expAccessRoute dv n c (m + 1) := by
  simp only [expAccessRoute]
  have e2 : c + 1 + m + 1 = c + (m + 1) + 1 := by omega
  have e3 : n + 1 + m + 2 = n + (m + 1) + 2 := by omega
  rw [e2, e3]

/-! ### Closed form of the access loop -/

lemma accessLoop_ok_of (distName : String) (dvlan : VLAN) (distIp : Nat)
    (h24 : dvlan.network.prefixLen = 24) :
    ∀ (count n c : Nat), n + count + 1 ≤ 255 → c + count ≤ 65535 →
    accessLoop distName dvlan distIp n count c =
      .ok ((List.range count).map (expAccess distName dvlan distIp n c),
           (List.range count).map (expAccessRoute dvlan n c),
           c + count) := by
  intro count
  induction count with
  | zero => intro n c _ _; simp [accessLoop]
  | succ k ih =>
    intro n c h1 h2
    have hup := netIndex_ok_24 h24 (show n + 2 < 256 by omega)
    have hacc := @mkAccess_ok (distName ++ "-access-" ++ toString n) dvlan
      (dvlan.network.base + (n + 2)) c (by omega)
    have hrec := ih (n + 1) (c + 1) (by omega) (by omega)
    simp only [accessLoop, hup, hacc, hrec, rtAdd, List.nil_append,
      List.range_succ_eq_map, List.map_cons, List.map_map, Except.ok.injEq,
      Prod.mk.injEq, List.cons.injEq, Nat.succ_eq_add_one]
    refine ⟨⟨?_, ?_⟩, ⟨?_, ?_⟩, by omega⟩
    · simp [expAccess]
    · exact List.map_congr_left fun m _ =>
        Function.comp_apply .. ▸ (expAccess_shift distName dvlan distIp n c m)
    · simp [expAccessRoute]
    · exact List.map_congr_left fun m _ =>
        Function.comp_apply .. ▸ (expAccessRoute_shift dvlan n c m)

lemma accessMap_step (distName : String) (dvlan : VLAN) (distIp : Nat) (n c k : Nat) :
    (List.range (k + 1)).map (expAccess distName dvlan distIp n c) =
      expAccess distName dvlan distIp n c 0 ::
        (List.range k).map (expAccess distName dvlan distIp (n + 1) (c + 1)) := by
  rw [List.range_succ_eq_map, List.map_cons, List.map_map]
  refine congrArg (List.cons _) (List.map_congr_left fun m _ => ?_)
  simp only [Function.comp_apply, Nat.succ_eq_add_one]
  exact (expAccess_shift distName dvlan distIp n c m).symm

lemma routeMap_step (dvlan : VLAN) (n c k : Nat) :
    (List.range (k + 1)).map (expAccessRoute dvlan n c) =
      expAccessRoute dvlan n c 0 ::
        (List.range k).map (expAccessRoute dvlan (n + 1) (c + 1)) := by
  rw [List.range_succ_eq_map, List.map_cons, List.map_map]
  refine congrArg (List.cons _) (List.map_congr_left fun m _ => ?_)
  simp only [Function.comp_apply, Nat.succ_eq_add_one]
  exact (expAccessRoute_shift dvlan n c m).symm

lemma accessLoop_ok_inv (distName : String) (dvlan : VLAN) (distIp : Nat) :
    ∀ (count n c : Nat) (accs : List Switch) (routes : List Route) (c' : Nat),
    accessLoop distName dvlan distIp n count c = .ok (accs, routes, c') →
    accs = (List.range count).map (expAccess distName dvlan distIp n c) ∧
    routes = (List.range count).map (expAccessRoute dvlan n c) ∧
    c' = c + count := by
  intro count
  induction count with
  | zero =>
    intro n c accs routes c' h
    simp only [accessLoop, Except.ok.injEq, Prod.mk.injEq] at h
    exact ⟨h.1.symm ▸ by simp, h.2.1.symm ▸ by simp, h.2.2.symm ▸ by simp⟩
  | succ k ih =>
    intro n c accs routes c' h
    rw [accessLoop] at h
    split at h
    · cases h
    · rename_i upIp hup
      obtain ⟨hupv, -⟩ := netIndex_ok_inv hup
      subst hupv
      split at h
      · cases h
      · rename_i acc c₂ hacc
        obtain ⟨hacc₀, hc₂, hle⟩ := mkAccess_ok_inv hacc
        subst hacc₀ hc₂
        simp only [rtAdd, List.nil_append] at h
        split at h
        · cases h
        · rename_i accs₂ routes₂ c₃ hrec
          obtain ⟨ha, hr, hc⟩ := ih (n + 1) (c + 1) accs₂ routes₂ c₃ hrec
          subst ha hr hc
          simp only [Except.ok.injEq, Prod.mk.injEq] at h
          obtain ⟨h1, h2, h3⟩ := h
          subst h1 h2 h3
          refine ⟨?_, ?_, by omega⟩
          · rw [accessMap_step]
            simp [expAccess]
          · rw [routeMap_step]
            simp [expAccessRoute]

/-! ### Redistribution: the copy loop over a distribution's table -/

lemma redistribute_append (xs ys : List Route) (hop : Nat) :
    redistribute (xs ++ ys) hop = redistribute xs hop ++ redistribute ys hop := by
  induction xs with
  | nil => simp [redistribute]
  | cons r rs ih =>
    simp only [List.cons_append, redistribute]
    split
    · exact ih
    · simp [ih]

lemma redistribute_nondefault (hop : Nat) :
    ∀ (rs : List Route), (∀ r ∈ rs, r.dst_network ≠ defaultNet) →
    redistribute rs hop = rs.map (fun r => ⟨r.dst_network, hop⟩) := by
  intro rs
  induction rs with
  | nil => intro _; simp [redistribute]
  | cons r rs ih =>
    intro h
    rw [redistribute, if_neg (h r (List.mem_cons_self r rs)), List.map_cons,
      ih (fun x hx => h x (List.mem_cons_of_mem r hx))]

lemma redistribute_access (dV : VLAN) (c hop x A : Nat) :
    redistribute ((List.range A).map (expAccessRoute dV 0 c) ++ [⟨defaultNet, x⟩]) hop =
      (List.range A).map (fun m => ⟨vlanNet (c + m + 1), hop⟩) := by
  have hnd : ∀ r ∈ (List.range A).map (expAccessRoute dV 0 c), r.dst_network ≠ defaultNet := by
    intro r hr
    obtain ⟨m, -, rfl⟩ := List.mem_map.mp hr
    simp only [expAccessRoute]
    exact vlanNet_ne_default _
  have h1 : redistribute [(⟨defaultNet, x⟩ : Route)] hop = [] := by simp [redistribute]
  rw [redistribute_append, h1, List.append_nil, redistribute_nondefault hop _ hnd,
    List.map_map]
  exact List.map_congr_left fun m _ => by simp [expAccessRoute]

/-! ### Closed form of `mkDistribution` -/

lemma mkDistribution_ok_of {name : String} {A : Nat} {wanV : VLAN} {wanIp c : Nat}
    (hA : A ≤ 254) (hc : c + (1 + A) ≤ 65535) :
    mkDistribution name A wanV wanIp c = .ok (expDistBase name A wanV wanIp c, c + 1 + A) := by
  have hsw := @mkSwitch_ok name c (by omega)
  have hal := accessLoop_ok_of name ⟨c + 1, vlanNet (c + 1)⟩ ((vlanNet (c + 1)).base + 1)
    (vlanNet_prefixLen (c + 1)) A 0 (c + 1) (by omega) (by omega)
  simp only [mkDistribution, hsw, List.cons_append, List.nil_append, hal, expDistBase]

lemma mkDistribution_ok_inv {name : String} {A : Nat} {wanV : VLAN} {wanIp c : Nat}
    {dist : Distribution} {c' : Nat}
    (h : mkDistribution name A wanV wanIp c = .ok (dist, c')) :
    dist = expDistBase name A wanV wanIp c ∧ c' = c + 1 + A := by
  unfold mkDistribution at h
  split at h
  · cases h
  · rename_i sw c₁ hsw
    obtain ⟨hsw₀, hc₁, -⟩ := mkSwitch_ok_inv hsw
    subst hsw₀ hc₁
    simp only [List.cons_append, List.nil_append] at h
    split at h
    · cases h
    · rename_i accs routes c₂ hal
      obtain ⟨ha, hr, hc⟩ := accessLoop_ok_inv name _ _ A 0 (c + 1) accs routes c₂ hal
      subst ha hr hc
      simp only [List.nil_append, Except.ok.injEq, Prod.mk.injEq] at h
      obtain ⟨h1, h2⟩ := h
      subst h1
      exact ⟨by simp [expDistBase], by omega⟩

/-! ### Closed form of the distribution loop and of `mkSite` -/

lemma expDistribution_shift (siteName : String) (A : Nat) (wanV : VLAN)
    (wanIp0 n c m : Nat) :
    expDistribution siteName A wanV wanIp0 (n + 1) (c + 1 + A) m =
      expDistribution siteName A wanV wanIp0 n c (m + 1) := by
  simp only [expDistribution]
  have e1 : c + 1 + A + m * (1 + A) + 1 = c + (m + 1) * (1 + A) + 1 := by ring
  have e2 : n + 1 + m = n + (m + 1) := by omega
  rw [e1, e2]

lemma expWanRoutes_shift (A : Nat) (wanV : VLAN) (n c m : Nat) :
    expWanRoutes A wanV (n + 1) (c + 1 + A) m = expWanRoutes A wanV n c (m + 1) := by
  simp only [expWanRoutes]
  have e1 : c + 1 + A + m * (1 + A) + 1 = c + (m + 1) * (1 + A) + 1 := by ring
  have e2 : n + 1 + m = n + (m + 1) := by omega
  rw [e1, e2]

lemma distMap_step (siteName : String) (A : Nat) (wanV : VLAN) (wanIp0 n c k : Nat) :
    (List.range (k + 1)).map (expDistribution siteName A wanV wanIp0 n c) =
      expDistribution siteName A wanV wanIp0 n c 0 ::
        (List.range k).map (expDistribution siteName A wanV wanIp0 (n + 1) (c + 1 + A)) := by
  rw [List.range_succ_eq_map, List.map_cons, List.map_map]
  refine congrArg (List.cons _) (List.map_congr_left fun m _ => ?_)
  simp only [Function.comp_apply, Nat.succ_eq_add_one]
  exact (expDistribution_shift siteName A wanV wanIp0 n c m).symm

lemma wanRoutes_step (A : Nat) (wanV : VLAN) (n c k : Nat) :
    ((List.range (k + 1)).map (expWanRoutes A wanV n c)).flatten =
      expWanRoutes A wanV n c 0 ++
        ((List.range k).map (expWanRoutes A wanV (n + 1) (c + 1 + A))).flatten := by
  rw [List.range_succ_eq_map, List.map_cons, List.map_map, List.flatten_cons]
  refine congrArg (fun l => expWanRoutes A wanV n c 0 ++ l)
    (congrArg List.flatten (List.map_congr_left fun m _ => ?_))
  simp only [Function.comp_apply, Nat.succ_eq_add_one]
  exact (expWanRoutes_shift A wanV n c m).symm

lemma distLoop_ok_of (siteName : String) (A : Nat) (wanV : VLAN) (wanIp0 : Nat)
    (h24 : wanV.network.prefixLen = 24) (hA : A ≤ 254) :
    ∀ (count : Nat) (wan : Switch) (rest : List RoutedVLAN) (n c : Nat),
    wan.routed_vlans = ⟨wanV, wanIp0⟩ :: rest →
    n + count ≤ 254 → c + count * (1 + A) ≤ 65535 →
    distLoop siteName A wan n count c =
      .ok ((List.range count).map (expDistribution siteName A wanV wanIp0 n c),
           { wan with routing_table :=
               wan.routing_table ++ ((List.range count).map (expWanRoutes A wanV n c)).flatten },
           c + count * (1 + A)) := by
  intro count
  induction count with
  | zero =>
    intro wan rest n c hw _ _
    simp [distLoop]
  | succ k ih =>
    intro wan rest n c hw h1 h2
    have hone : (1 + A) ≤ (k + 1) * (1 + A) :=
      Nat.le_mul_of_pos_left _ (Nat.succ_pos k)
    have hsplit : (k + 1) * (1 + A) = (1 + A) + k * (1 + A) := by ring
    have hup : netIndex wanV.network (2 + n) = .ok (wanV.network.base + (2 + n)) :=
      netIndex_ok_24 h24 (by omega)
    have hdist := @mkDistribution_ok_of (siteName ++ "-dist-" ++ toString n) A wanV
      (wanV.network.base + (2 + n)) c hA (by omega)
    have hred := redistribute_access ⟨c + 1, vlanNet (c + 1)⟩ (c + 1)
      (wanV.network.base + (2 + n)) wanIp0 A
    have hrec := ih
      (Switch.mk wan.name (⟨wanV, wanIp0⟩ :: rest)
        (wan.routing_table ++ (List.range A).map
          (fun m => (⟨vlanNet (c + 1 + m + 1), wanV.network.base + (2 + n)⟩ : Route))))
      rest (n + 1) (c + 1 + A) rfl (by omega) (by omega)
    simp only [distLoop, hw, hup, hdist, expDistBase, rtAdd, hred, hrec,
      Except.ok.injEq, Prod.mk.injEq]
    refine ⟨?_, ?_, by ring⟩
    · rw [distMap_step]
      refine congrArg₂ List.cons ?_ rfl
      simp [expDistribution]
    · rw [wanRoutes_step, ← List.append_assoc]
      simp only [Switch.mk.injEq]
      refine ⟨trivial, by simp [hw], ?_⟩
      refine congrArg₂ List.append (congrArg (fun l => wan.routing_table ++ l) ?_) rfl
      simp [expWanRoutes]

lemma distLoop_ok_inv (siteName : String) (A : Nat) (wanV : VLAN) (wanIp0 : Nat) :
    ∀ (count : Nat) (wan : Switch) (rest : List RoutedVLAN) (n c : Nat)
      (dists : List Distribution) (wanF : Switch) (c' : Nat),
    wan.routed_vlans = ⟨wanV, wanIp0⟩ :: rest →
    distLoop siteName A wan n count c = .ok (dists, wanF, c') →
    dists = (List.range count).map (expDistribution siteName A wanV wanIp0 n c) ∧
    wanF = { wan with routing_table :=
        wan.routing_table ++ ((List.range count).map (expWanRoutes A wanV n c)).flatten } ∧
    c' = c + count * (1 + A) := by
  intro count
  induction count with
  | zero =>
    intro wan rest n c dists wanF c' hw h
    simp only [distLoop, Except.ok.injEq, Prod.mk.injEq] at h
    obtain ⟨h1, h2, h3⟩ := h
    subst h1 h2 h3
    exact ⟨by simp, by simp, by simp⟩
  | succ k ih =>
    intro wan rest n c dists wanF c' hw h
    simp only [distLoop, hw] at h
    split at h
    · cases h
    · rename_i wanIp hup
      obtain ⟨hipv, -⟩ := netIndex_ok_inv hup
      subst hipv
      split at h
      · cases h
      · rename_i dist c₁ hd
        obtain ⟨hde, hc₁⟩ := mkDistribution_ok_inv hd
        subst hde hc₁
        simp only [expDistBase, rtAdd] at h
        rw [redistribute_access ⟨c + 1, vlanNet (c + 1)⟩ (c + 1)
          (wanV.network.base + (2 + n)) wanIp0 A] at h
        split at h
        · cases h
        · rename_i dists₂ wanF₂ c₃ hrec
          obtain ⟨hd2, hwF, hc3⟩ := ih _ rest (n + 1) (c + 1 + A) dists₂ wanF₂ c₃
            (by simp [hw]) hrec
          subst hd2 hwF hc3
          simp only [Except.ok.injEq, Prod.mk.injEq] at h
          obtain ⟨h1, h2, h3⟩ := h
          subst h1 h2 h3
          refine ⟨?_, ?_, by ring⟩
          · rw [distMap_step]
            refine congrArg₂ List.cons ?_ rfl
            simp [expDistribution]
          · rw [wanRoutes_step, ← List.append_assoc]
            simp only [Switch.mk.injEq]
            refine ⟨trivial, by simp [hw], ?_⟩
            refine congrArg₂ List.append (congrArg (fun l => wan.routing_table ++ l) ?_) rfl
            simp [expWanRoutes]

lemma mkSite_ok_of {name : String} {D A c : Nat} (hD : D ≤ 254) (hA : A ≤ 254)
    (hc : c + 1 + D * (1 + A) ≤ 65535) :
    mkSite name D A c = .ok (expSite name D A c, c + 1 + D * (1 + A)) := by
  have hsw := @mkSwitch_ok (name ++ "-wan-0") c
    (le_trans (Nat.le_add_right (c + 1) (D * (1 + A))) hc)
  have hdl := distLoop_ok_of name A ⟨c + 1, vlanNet (c + 1)⟩ ((vlanNet (c + 1)).base + 1)
    (vlanNet_prefixLen (c + 1)) hA D
    { name := name ++ "-wan-0",
      routed_vlans := [⟨⟨c + 1, vlanNet (c + 1)⟩, (vlanNet (c + 1)).base + 1⟩],
      routing_table := [] }
    [] 0 (c + 1) rfl (by omega) hc
  simp only [mkSite, hsw, hdl, expSite, List.nil_append]

lemma mkSite_ok_inv {name : String} {D A c : Nat} {s : Site} {c' : Nat}
    (h : mkSite name D A c = .ok (s, c')) :
    s = expSite name D A c ∧ c' = c + 1 + D * (1 + A) := by
  unfold mkSite at h
  split at h
  · cases h
  · rename_i wan c₁ hsw
    obtain ⟨hw₀, hc₁, -⟩ := mkSwitch_ok_inv hsw
    subst hw₀ hc₁
    split at h
    · cases h
    · rename_i dists wanF c₂ hdl
      obtain ⟨hd, hwF, hc₂⟩ := distLoop_ok_inv name A ⟨c + 1, vlanNet (c + 1)⟩
        ((vlanNet (c + 1)).base + 1) D _ [] 0 (c + 1) dists wanF c₂ rfl hdl
      subst hd hwF hc₂
      simp only [Except.ok.injEq, Prod.mk.injEq] at h
      obtain ⟨h1, h2⟩ := h
      subst h1
      exact ⟨by simp [expSite], by omega⟩

/-! ### The allocated VLANs of a successful build -/

lemma range'_glue (s n m : Nat) :
    List.range' s n ++ List.range' (s + n) m = List.range' s (n + m) := by
  have h := List.range'_append s n m 1
  simp only [Nat.one_mul] at h
  rw [Nat.add_comm m n] at h
  exact h

lemma flatten_blocks (L s : Nat) :
    ∀ D, ((List.range D).map (fun k => List.range' (s + k * L) L)).flatten =
      List.range' s (D * L) := by
  intro D
  induction D with
  | zero => simp
  | succ d ih =>
    rw [List.range_succ, List.map_append, List.flatten_append]
    simp only [List.map_cons, List.map_nil, List.flatten_cons, List.flatten_nil,
      List.append_nil]
    rw [ih, range'_glue]
    congr 1
    ring

lemma mem_allDevices_expSite {name : String} {D A c : Nat} {sw : Switch}
    (h : sw ∈ allDevices (expSite name D A c)) :
    ∃ id rest, sw.routed_vlans = ⟨⟨id, vlanNet id⟩, (vlanNet id).base + 1⟩ :: rest := by
  simp only [allDevices, expSite, List.mem_cons, List.mem_flatMap, List.mem_map,
    List.mem_range] at h
  rcases h with rfl | ⟨d, ⟨k, -, rfl⟩, hd⟩
  · exact ⟨c + 1, [], rfl⟩
  · rcases hd with rfl | hacc
    · refine ⟨c + 1 + k * (1 + A) + 1, [⟨⟨c + 1, vlanNet (c + 1)⟩,
        (vlanNet (c + 1)).base + (2 + (0 + k))⟩], ?_⟩
      simp [Distribution.toSwitch, expDistribution]
    · simp only [expDistribution] at hacc
      obtain ⟨m, -, rfl⟩ := List.mem_map.mp hacc
      refine ⟨c + 1 + k * (1 + A) + 1 + m + 1, [⟨⟨c + 1 + k * (1 + A) + 1,
        vlanNet (c + 1 + k * (1 + A) + 1)⟩,
        (vlanNet (c + 1 + k * (1 + A) + 1)).base + (0 + m + 2)⟩], ?_⟩
      simp [expAccess]

lemma allocIds_expSite (name : String) (D A c : Nat) :
    allocIds (expSite name D A c) = List.range' (c + 1) (1 + D * (1 + A)) := by
  have hblk : ∀ k,
      ((ownRV (Distribution.toSwitch
          (expDistribution name A ⟨c + 1, vlanNet (c + 1)⟩ ((vlanNet (c + 1)).base + 1)
            0 (c + 1) k))).vlan.id ::
        ((expDistribution name A ⟨c + 1, vlanNet (c + 1)⟩ ((vlanNet (c + 1)).base + 1)
            0 (c + 1) k).accesses.map (fun sw => (ownRV sw).vlan.id))) =
      List.range' (c + 2 + k * (1 + A)) (1 + A) := by
    intro k
    have hcons : List.range' (c + 2 + k * (1 + A)) (1 + A) =
        (c + 2 + k * (1 + A)) :: List.range' (c + 2 + k * (1 + A) + 1) A := by
      rw [Nat.add_comm 1 A, List.range'_succ]
    rw [hcons]
    refine congrArg₂ List.cons ?_ ?_
    · simp [expDistribution, Distribution.toSwitch, ownRV]
      omega
    · rw [List.range'_eq_map_range]
      simp only [expDistribution, List.map_map]
      refine List.map_congr_left fun m _ => ?_
      simp [expAccess, ownRV]
      omega
  have h1 : allocIds (expSite name D A c) =
      (c + 1) :: ((List.range D).map
        (fun k => List.range' (c + 2 + k * (1 + A)) (1 + A))).flatten := by
    simp only [allocIds, allDevices, List.map_cons, List.map_flatMap, List.flatMap_map]
    refine congrArg₂ List.cons ?_ ?_
    · simp [expSite, ownRV]
    · rw [List.flatMap_def]
      refine congrArg List.flatten ?_
      simp only [expSite]
      rw [List.map_map]
      refine List.map_congr_left fun k _ => ?_
      simpa using hblk k
  rw [h1, flatten_blocks]
  have : List.range' (c + 1) (1 + D * (1 + A)) =
      (c + 1) :: List.range' (c + 2) (D * (1 + A)) := by
    rw [Nat.add_comm 1 (D * (1 + A)), List.range'_succ]
  rw [this]

lemma allocNets_expSite (name : String) (D A c : Nat) :
    allocNets (expSite name D A c) = (allocIds (expSite name D A c)).map vlanNet := by
  simp only [allocNets, allocIds, List.map_map]
  refine List.map_congr_left fun sw hsw => ?_
  obtain ⟨id, rest, hrv⟩ := mem_allDevices_expSite hsw
  simp [ownRV, hrv]

/-! ### Failure of the build at the addressing boundaries -/

lemma accessLoop_indexError (distName : String) (dvlan : VLAN) (distIp : Nat)
    (h24 : dvlan.network.prefixLen = 24) :
    ∀ (count n c : Nat), 255 ≤ n + count → n ≤ 254 → c + (254 - n) ≤ 65535 →
    accessLoop distName dvlan distIp n count c = .error .indexError := by
  intro count
  induction count with
  | zero => intro n c h1 h2 _; exact absurd h1 (by omega)
  | succ k ih =>
    intro n c h1 h2 h3
    by_cases hn : n = 254
    · subst hn
      have hfail : netIndex dvlan.network (254 + 2) = .error .indexError := by
        unfold netIndex
        rw [h24, if_neg (by norm_num)]
      simp [accessLoop, hfail]
    · have hup := netIndex_ok_24 h24 (show n + 2 < 256 by omega)
      have hacc := @mkAccess_ok (distName ++ "-access-" ++ toString n) dvlan
        (dvlan.network.base + (n + 2)) c (by omega)
      have hrec := ih (n + 1) (c + 1) (by omega) (by omega) (by omega)
      simp [accessLoop, hup, hacc, hrec]

lemma mkDistribution_indexError (name : String) (A : Nat) (wanV : VLAN)
    (wanIp c : Nat) (hA : 255 ≤ A) (hc : c + 255 ≤ 65535) :
    mkDistribution name A wanV wanIp c = .error .indexError := by
  have hsw := @mkSwitch_ok name c (by omega)
  have hal := accessLoop_indexError name ⟨c + 1, vlanNet (c + 1)⟩
    ((vlanNet (c + 1)).base + 1) (vlanNet_prefixLen (c + 1)) A 0 (c + 1)
    (by omega) (by omega) (by omega)
  simp [mkDistribution, hsw, hal]

lemma distLoop_indexError_atEnd (siteName : String) (A : Nat) (wanV : VLAN)
    (wanIp0 : Nat) (h24 : wanV.network.prefixLen = 24) (hA : A ≤ 254) :
    ∀ (count : Nat) (wan : Switch) (rest : List RoutedVLAN) (n c : Nat),
    wan.routed_vlans = ⟨wanV, wanIp0⟩ :: rest →
    255 ≤ n + count → n ≤ 254 → c + (255 - n) * (1 + A) ≤ 65535 →
    distLoop siteName A wan n count c = .error .indexError := by
  intro count
  induction count with
  | zero => intro wan rest n c _ h1 h2 _; exact absurd h1 (by omega)
  | succ k ih =>
    intro wan rest n c hw h1 h2 h3
    by_cases hn : n = 254
    · subst hn
      have hfail : netIndex wanV.network (2 + 254) = .error .indexError := by
        unfold netIndex
        rw [h24, if_neg (by norm_num)]
      simp [distLoop, hw, hfail]
    · have hone : (1 + A) ≤ (255 - n) * (1 + A) :=
        Nat.le_mul_of_pos_left _ (by omega)
      have hsplit : (255 - n) * (1 + A) = (1 + A) + (255 - (n + 1)) * (1 + A) := by
        have hs : 255 - n = 1 + (255 - (n + 1)) := by omega
        rw [hs]
        ring
      have hup : netIndex wanV.network (2 + n) = .ok (wanV.network.base + (2 + n)) :=
        netIndex_ok_24 h24 (by omega)
      have hdist := @mkDistribution_ok_of (siteName ++ "-dist-" ++ toString n) A wanV
        (wanV.network.base + (2 + n)) c hA (by omega)
      have hred := redistribute_access ⟨c + 1, vlanNet (c + 1)⟩ (c + 1)
        (wanV.network.base + (2 + n)) wanIp0 A
      have hrec := ih
        (Switch.mk wan.name (⟨wanV, wanIp0⟩ :: rest)
          (wan.routing_table ++ (List.range A).map
            (fun m => (⟨vlanNet (c + 1 + m + 1), wanV.network.base + (2 + n)⟩ : Route))))
        rest (n + 1) (c + 1 + A) rfl (by omega) (by omega) (by omega)
      simp [distLoop, hw, hup, hdist, expDistBase, rtAdd, hred, hrec]

lemma distLoop_indexError_bigA (siteName : String) (A : Nat) (wanV : VLAN)
    (wanIp0 : Nat) (h24 : wanV.network.prefixLen = 24) (hA : 255 ≤ A) :
    ∀ (count : Nat) (wan : Switch) (rest : List RoutedVLAN) (n c : Nat),
    wan.routed_vlans = ⟨wanV, wanIp0⟩ :: rest →
    n ≤ 253 → c + 256 ≤ 65535 → 1 ≤ count →
    distLoop siteName A wan n count c = .error .indexError := by
  intro count
  cases count with
  | zero => intro wan rest n c _ _ _ hcount; exact absurd hcount (by omega)
  | succ k =>
    intro wan rest n c hw hn hc _
    have hup : netIndex wanV.network (2 + n) = .ok (wanV.network.base + (2 + n)) :=
      netIndex_ok_24 h24 (by omega)
    have hdist := mkDistribution_indexError (siteName ++ "-dist-" ++ toString n) A wanV
      (wanV.network.base + (2 + n)) c hA (by omega)
    simp [distLoop, hw, hup, hdist]

lemma mkSite_zeroD (name : String) (A c : Nat) (hc : c + 1 ≤ 65535) :
    mkSite name 0 A c =
      .ok ({ name := name,
             wan := { name := name ++ "-wan-0",
                      routed_vlans := [⟨⟨c + 1, vlanNet (c + 1)⟩, (vlanNet (c + 1)).base + 1⟩],
                      routing_table := [] },
             distributions := [] }, c + 1) := by
  simp [mkSite, mkSwitch_ok hc, distLoop]

/-! ### Claim theorems -/

/-- Claim C2: from a fresh allocator state, `Site("lab", 1, 1)` produces
exactly the WAN (VLAN 1, `10.0.1.0/24`, own address `10.0.1.1`, one route
`10.0.3.0/24 via 10.0.1.2`), the distribution `lab-dist-0` (VLAN 2,
`10.0.2.0/24`, own `10.0.2.1`, uplink `10.0.1.2` in VLAN 1, table
`[10.0.3.0/24 via 10.0.2.2, 0.0.0.0/0 via 10.0.1.1]`) and the access
`lab-dist-0-access-0` (VLAN 3, `10.0.3.0/24`, own `10.0.3.1`, uplink
`10.0.2.2` in VLAN 2, table `[0.0.0.0/0 via 10.0.2.1]`). -/
theorem c2_concrete_build :
    mkSite "lab" 1 1 0 =
      .ok ({ name := "lab",
             wan := { name := "lab-wan-0",
                      routed_vlans := [⟨⟨1, ⟨ipv4 10 0 1 0, 24⟩⟩, ipv4 10 0 1 1⟩],
                      routing_table := [⟨⟨ipv4 10 0 3 0, 24⟩, ipv4 10 0 1 2⟩] },
             distributions := [
               { name := "lab-dist-0",
                 routed_vlans := [⟨⟨2, ⟨ipv4 10 0 2 0, 24⟩⟩, ipv4 10 0 2 1⟩,
                                  ⟨⟨1, ⟨ipv4 10 0 1 0, 24⟩⟩, ipv4 10 0 1 2⟩],
                 routing_table := [⟨⟨ipv4 10 0 3 0, 24⟩, ipv4 10 0 2 2⟩,
                                   ⟨defaultNet, ipv4 10 0 1 1⟩],
                 accesses := [
                   { name := "lab-dist-0-access-0",
                     routed_vlans := [⟨⟨3, ⟨ipv4 10 0 3 0, 24⟩⟩, ipv4 10 0 3 1⟩,
                                      ⟨⟨2, ⟨ipv4 10 0 2 0, 24⟩⟩, ipv4 10 0 2 2⟩],
                     routing_table := [⟨defaultNet, ipv4 10 0 2 1⟩] }] }] }, 3) := by
  decide

/-- Claim C5 (code evaluated at the claimed boundary): the allocator has no
exhaustion guard.  The 65026th allocation (counter 65025) succeeds and
returns the valid, non-colliding subnet `10.254.2.0/24`; so does the next
one; the code only fails — with `ValueError`, not an `AllocationExhausted`
condition — when the id reaches 65536 and the second octet leaves the
0..255 range. -/
theorem c5_no_exhaustion_guard :
    allocVLAN 65025 = .ok (⟨65026, ⟨ipv4 10 254 2 0, 24⟩⟩, 65026) ∧
    allocVLAN 65026 = .ok (⟨65027, ⟨ipv4 10 254 3 0, 24⟩⟩, 65027) ∧
    allocVLAN 65535 = .error .valueError := by
  decide

/-- Claim C7: `RoutingTable.remove` deletes the first entry that exactly
matches the given route object, leaving the surrounding entries in order,
and on a route with no match it fails with the `AssertionError` of
`assert route in self.routes` — it never silently succeeds. -/
theorem c7_remove_first_match (tbl : List RouteObj) (r : RouteObj) :
    (∀ l, rtRemove tbl r = .ok l →
        ∃ pre post, r ∉ pre ∧ tbl = pre ++ r :: post ∧ l = pre ++ post) ∧
    (r ∉ tbl → rtRemove tbl r = .error .assertionError) := by
  constructor
  · intro l h
    unfold rtRemove at h
    split at h
    · rename_i hmem
      obtain ⟨l₁, l₂, hnot, heq, herase⟩ := List.exists_erase_eq hmem
      refine ⟨l₁, l₂, hnot, heq, ?_⟩
      simp only [Except.ok.injEq] at h
      rw [← h, herase]
    · cases h
  · intro hnot
    unfold rtRemove
    rw [if_neg hnot]

/-- Claim C7, witness: removing the second of two identical-looking route
objects deletes exactly that object, and removing an absent object fails. -/
theorem c7_witness :
    (∃ pre post, (⟨defaultNet, 5, 1⟩ : RouteObj) ∉ pre ∧
        c7tbl = pre ++ ⟨defaultNet, 5, 1⟩ :: post ∧
        [(⟨defaultNet, 5, 0⟩ : RouteObj)] = pre ++ post) ∧
    rtRemove c7tbl ⟨defaultNet, 5, 2⟩ = .error .assertionError :=
  ⟨(c7_remove_first_match c7tbl ⟨defaultNet, 5, 1⟩).1 [⟨defaultNet, 5, 0⟩] (by decide),
   (c7_remove_first_match c7tbl ⟨defaultNet, 5, 2⟩).2 (by decide)⟩

/-- Claim C8, counterexample: two separately constructed `Route` objects
with equal destination and next hop are *not* equal — the class defines no
`__eq__`, so `==` is object identity. -/
theorem c8_counterexample :
    ((mkRouteObj defaultNet (ipv4 10 0 1 1) 0).1.dst_network =
        (mkRouteObj defaultNet (ipv4 10 0 1 1)
          (mkRouteObj defaultNet (ipv4 10 0 1 1) 0).2).1.dst_network ∧
      (mkRouteObj defaultNet (ipv4 10 0 1 1) 0).1.next_hop =
        (mkRouteObj defaultNet (ipv4 10 0 1 1)
          (mkRouteObj defaultNet (ipv4 10 0 1 1) 0).2).1.next_hop) ∧
    (mkRouteObj defaultNet (ipv4 10 0 1 1) 0).1 ≠
      (mkRouteObj defaultNet (ipv4 10 0 1 1)
        (mkRouteObj defaultNet (ipv4 10 0 1 1) 0).2).1 := by
  decide

/-- Claim C8 (amended): `Route` equality is Python object identity, not
field equality: any two separately constructed route objects are distinct,
whatever their field values. -/
theorem c8_route_identity (d1 d2 : IPv4Net) (h1 h2 t : Nat) :
    (mkRouteObj d1 h1 t).1 ≠ (mkRouteObj d2 h2 (mkRouteObj d1 h1 t).2).1 := by
  simp only [mkRouteObj, ne_eq, RouteObj.mk.injEq, not_and]
  intro _ _
  omega

/-- Claim C4, counterexample: the VLAN counter is process-global, so the
second of two identical in-process builds starts at counter 3 and gives
its WAN VLAN id 4, producing a different topology — the WAN does not
receive VLAN id 1 in every build. -/
theorem c4_counterexample :
    resCounter (mkSite "lab" 1 1 0) = 3 ∧
    (ownRV (resSite (mkSite "lab" 1 1 3)).wan).vlan.id = 4 ∧
    mkSite "lab" 1 1 3 ≠ mkSite "lab" 1 1 0 := by
  decide

/-- Claim C4 (amended): generation is deterministic in the inputs together
with the global VLAN counter: a successful build from counter `c` gives the
WAN the VLAN id `c + 1` and leaves the counter at `c + (1 + D + D*A)`, so
only a build from the fresh counter 0 gives the WAN VLAN id 1. -/
theorem c4_deterministic_in_counter (name : String) (D A c : Nat) (s : Site)
    (c' : Nat) (h : mkSite name D A c = .ok (s, c')) :
    (ownRV s.wan).vlan.id = c + 1 ∧ c' = c + (1 + D + D * A) := by
  obtain ⟨hs, hc⟩ := mkSite_ok_inv h
  subst hs
  constructor
  · simp [expSite, ownRV]
  · rw [hc]; ring

/-- Claim C4, witness: the amended statement evaluated on the fresh build
`Site("lab", 1, 1)`. -/
theorem c4_witness :
    (ownRV (resSite (mkSite "lab" 1 1 0)).wan).vlan.id = 0 + 1 ∧
    resCounter (mkSite "lab" 1 1 0) = 0 + (1 + 1 + 1 * 1) :=
  c4_deterministic_in_counter "lab" 1 1 0 (resSite (mkSite "lab" 1 1 0))
    (resCounter (mkSite "lab" 1 1 0)) rfl

/-- Claim C1: after a successful build, the WAN routing table has exactly
`D*A` routes — one per access across all distributions, with destination
that access's own subnet and next hop the owning distribution's uplink
address, which is the `(2+n)`-th address of the WAN subnet for
distribution `n` — and it contains no default route. -/
theorem c1_wan_routing_table (name : String) (D A c : Nat) (s : Site) (c' : Nat)
    (h : mkSite name D A c = .ok (s, c')) :
    s.wan.routing_table.length = D * A ∧
    s.wan.routing_table = s.distributions.flatMap
      (fun d => d.accesses.map
        (fun a => ⟨(ownRV a).vlan.network, (uplinkRV d).ip_address⟩)) ∧
    (∀ (n : Nat) (hn : n < s.distributions.length),
        (uplinkRV (s.distributions.get ⟨n, hn⟩)).ip_address =
          (ownRV s.wan).vlan.network.base + (2 + n)) ∧
    (∀ r ∈ s.wan.routing_table, r.dst_network ≠ defaultNet) := by
  obtain ⟨hs, -⟩ := mkSite_ok_inv h
  subst hs
  refine ⟨?_, ?_, ?_, ?_⟩
  · simp only [expSite, List.length_flatten, List.map_map]
    have hconst : ∀ k ∈ List.range D,
        (List.length ∘ expWanRoutes A ⟨c + 1, vlanNet (c + 1)⟩ 0 (c + 1)) k = A := by
      intro k _
      simp [expWanRoutes]
    have h2 : (List.range D).map
        (List.length ∘ expWanRoutes A ⟨c + 1, vlanNet (c + 1)⟩ 0 (c + 1)) =
        (List.range D).map (fun _ => A) := List.map_congr_left hconst
    rw [h2, sum_map_const, List.length_range]
  · simp only [expSite]
    rw [List.flatMap_map, List.flatMap_def]
    refine congrArg List.flatten (List.map_congr_left fun k _ => ?_)
    simp only [expWanRoutes, expDistribution, uplinkRV, ownRV, List.map_map,
      List.getD_cons_succ, List.getD_cons_zero]
    refine List.map_congr_left fun m _ => ?_
    simp [expAccess, ownRV]
  · intro n hn
    simp only [expSite, List.get_eq_getElem, List.getElem_map, List.getElem_range]
    simp [uplinkRV, expDistribution, ownRV, List.getD_cons_succ, List.getD_cons_zero]
  · intro r hr
    simp only [expSite, List.mem_flatten, List.mem_map, List.mem_range] at hr
    obtain ⟨l, ⟨k, -, rfl⟩, hrl⟩ := hr
    simp only [expWanRoutes, List.mem_map, List.mem_range] at hrl
    obtain ⟨m, -, rfl⟩ := hrl
    exact vlanNet_ne_default _

/-- Claim C1, witness: the statement evaluated on the fresh build
`Site("lab", 1, 1)`. -/
theorem c1_witness :
    (resSite (mkSite "lab" 1 1 0)).wan.routing_table.length = 1 * 1 ∧
    (resSite (mkSite "lab" 1 1 0)).wan.routing_table =
      (resSite (mkSite "lab" 1 1 0)).distributions.flatMap
        (fun d => d.accesses.map
          (fun a => ⟨(ownRV a).vlan.network, (uplinkRV d).ip_address⟩)) ∧
    (∀ (n : Nat) (hn : n < (resSite (mkSite "lab" 1 1 0)).distributions.length),
        (uplinkRV ((resSite (mkSite "lab" 1 1 0)).distributions.get ⟨n, hn⟩)).ip_address =
          (ownRV (resSite (mkSite "lab" 1 1 0)).wan).vlan.network.base + (2 + n)) ∧
    (∀ r ∈ (resSite (mkSite "lab" 1 1 0)).wan.routing_table,
        r.dst_network ≠ defaultNet) :=
  c1_wan_routing_table "lab" 1 1 0 (resSite (mkSite "lab" 1 1 0))
    (resCounter (mkSite "lab" 1 1 0)) rfl

/-- Claim C3: a successful build allocates exactly `1 + D + D*A` VLANs
(the counter advances by that amount and the devices own that many), and
no two of them share an id or a subnet. -/
theorem c3_vlan_allocation (name : String) (D A c : Nat) (s : Site) (c' : Nat)
    (h : mkSite name D A c = .ok (s, c')) :
    c' = c + (1 + D + D * A) ∧
    (allocIds s).length = 1 + D + D * A ∧
    (allocIds s).Nodup ∧
    (allocNets s).Nodup := by
  obtain ⟨hs, hc⟩ := mkSite_ok_inv h
  subst hs
  refine ⟨by rw [hc]; ring, ?_, ?_, ?_⟩
  · rw [allocIds_expSite, List.length_range']
    ring
  · rw [allocIds_expSite]
    exact List.nodup_range' _ _
  · rw [allocNets_expSite, allocIds_expSite]
    exact (List.nodup_range' _ _).map vlanNet_injective

/-- Claim C3, witness: the statement evaluated on the fresh build
`Site("lab", 1, 1)`. -/
theorem c3_witness :
    resCounter (mkSite "lab" 1 1 0) = 0 + (1 + 1 + 1 * 1) ∧
    (allocIds (resSite (mkSite "lab" 1 1 0))).length = 1 + 1 + 1 * 1 ∧
    (allocIds (resSite (mkSite "lab" 1 1 0))).Nodup ∧
    (allocNets (resSite (mkSite "lab" 1 1 0))).Nodup :=
  c3_vlan_allocation "lab" 1 1 0 (resSite (mkSite "lab" 1 1 0))
    (resCounter (mkSite "lab" 1 1 0)) rfl

/-- Claim C9: every device of a successful build has as zeroth routed VLAN
its own freshly allocated VLAN — whose subnet is
`10.(id div 256).(id mod 256).0/24` — bound at the first usable address
(the `.1` address) of that subnet. -/
theorem c9_zeroth_routed_vlan (name : String) (D A c : Nat) (s : Site) (c' : Nat)
    (h : mkSite name D A c = .ok (s, c')) :
    ∀ sw ∈ allDevices s, ∃ id rest,
      sw.routed_vlans = ⟨⟨id, vlanNet id⟩, (vlanNet id).base + 1⟩ :: rest := by
  obtain ⟨hs, -⟩ := mkSite_ok_inv h
  subst hs
  exact fun sw hsw => mem_allDevices_expSite hsw

/-- Claim C9, witness: the statement evaluated on the WAN device of the
fresh build `Site("lab", 1, 1)`. -/
theorem c9_witness :
    ∃ id rest, (resSite (mkSite "lab" 1 1 0)).wan.routed_vlans =
      ⟨⟨id, vlanNet id⟩, (vlanNet id).base + 1⟩ :: rest :=
  c9_zeroth_routed_vlan "lab" 1 1 0 (resSite (mkSite "lab" 1 1 0))
    (resCounter (mkSite "lab" 1 1 0)) rfl
    (resSite (mkSite "lab" 1 1 0)).wan (by decide)

/-- Claim C6, counterexample: `Site("lab", -1, -1)` does not raise any
`ConfigurationError` — no such error exists in the code; the build
completes and returns a topology with the WAN device and no
distributions. -/
theorem c6_counterexample :
    mkSiteI "lab" (-1) (-1) 0 =
      .ok ({ name := "lab",
             wan := { name := "lab-wan-0",
                      routed_vlans := [⟨⟨1, ⟨ipv4 10 0 1 0, 24⟩⟩, ipv4 10 0 1 1⟩],
                      routing_table := [] },
             distributions := [] }, 1) := by
  decide

/-- Claim C6 (amended): negative counts are silently treated as zero —
`range(0, k)` is empty for `k < 0` — so the build completes without any
error: a negative `numDistributions` yields a site with only the WAN
device, and a negative `numAccess` yields distributions with no access
switches. -/
theorem c6_negative_counts (name : String) (dn da : Int) (c : Nat) :
    (dn < 0 → c + 1 ≤ 65535 →
      ∃ s : Site, mkSiteI name dn da c = .ok (s, c + 1) ∧ s.distributions = []) ∧
    (da < 0 → 0 ≤ dn → dn ≤ 254 → c + 1 + dn.toNat ≤ 65535 →
      ∃ s : Site, mkSiteI name dn da c = .ok (s, c + 1 + dn.toNat) ∧
        ∀ d ∈ s.distributions, d.accesses = []) := by
  constructor
  · intro hdn hc
    have h0 : dn.toNat = 0 := by omega
    refine ⟨{ name := name,
              wan := { name := name ++ "-wan-0",
                       routed_vlans := [⟨⟨c + 1, vlanNet (c + 1)⟩, (vlanNet (c + 1)).base + 1⟩],
                       routing_table := [] },
              distributions := [] }, ?_, rfl⟩
    show mkSite name dn.toNat da.toNat c = _
    rw [h0]
    exact mkSite_zeroD name da.toNat c hc
  · intro hda hdn0 hdn254 hc
    have h0 : da.toNat = 0 := by omega
    refine ⟨expSite name dn.toNat 0 c, ?_, ?_⟩
    · show mkSite name dn.toNat da.toNat c = _
      rw [h0]
      have hmk := @mkSite_ok_of name dn.toNat 0 c (by omega) (by omega) (by simpa using hc)
      simpa using hmk
    · intro d hd
      simp only [expSite, List.mem_map, List.mem_range] at hd
      obtain ⟨k, -, rfl⟩ := hd
      simp [expDistribution]

/-- Claim C6, witness: the amended statement evaluated at negative counts. -/
theorem c6_witness :
    (∃ s : Site, mkSiteI "lab" (-2) 5 0 = .ok (s, 0 + 1) ∧ s.distributions = []) ∧
    (∃ s : Site, mkSiteI "lab" 1 (-3) 0 = .ok (s, 0 + 1 + (1 : Int).toNat) ∧
      ∀ d ∈ s.distributions, d.accesses = []) :=
  ⟨(c6_negative_counts "lab" (-2) 5 0).1 (by decide) (by decide),
   (c6_negative_counts "lab" 1 (-3) 0).2 (by decide) (by decide) (by decide) (by decide)⟩

/-- Claim C10, counterexample: with `numDistributions = 0` the access
count is never used, so `Site("lab", 0, 255)` succeeds — an access count
of 255 alone does not make the build fail. -/
theorem c10_counterexample :
    mkSite "lab" 0 255 0 =
      .ok ({ name := "lab",
             wan := { name := "lab-wan-0",
                      routed_vlans := [⟨⟨1, ⟨ipv4 10 0 1 0, 24⟩⟩, ipv4 10 0 1 1⟩],
                      routing_table := [] },
             distributions := [] }, 1) := by
  decide

/-- Claim C10 (amended): with `numDistributions ≥ 255`, or with at least
one distribution and `numAccess ≥ 255`, the build fails with the
`IndexError` of the `2+n` subnet indexing (no guarded or configuration
failure); with a count of exactly 254 the last child's uplink is silently
bound to the parent subnet's broadcast address `.255`: the 254th
distribution is bound to the WAN subnet's `.255`, and the 254th access is
bound to its distribution subnet's `.255`. -/
theorem c10_uplink_boundary (name : String) :
    (∀ D A : Nat, (255 ≤ D ∨ (1 ≤ D ∧ 255 ≤ A)) →
        mkSite name D A 0 = .error .indexError) ∧
    (∀ A : Nat, A ≤ 254 →
        ∃ s c', mkSite name 254 A 0 = .ok (s, c') ∧
          (uplinkRV (s.distributions.getD 253 dummyDist)).ip_address =
            (ownRV s.wan).vlan.network.base + 255) ∧
    (∃ s c', mkSite name 1 254 0 = .ok (s, c') ∧
        (uplinkRVs ((s.distributions.getD 0 dummyDist).accesses.getD 253 dummySwitch)).ip_address =
          (ownRV (Distribution.toSwitch (s.distributions.getD 0 dummyDist))).vlan.network.base + 255) := by
  refine ⟨?_, ?_, ?_⟩
  · intro D A hDA
    have hsw := @mkSwitch_ok (name ++ "-wan-0") 0 (by norm_num)
    have hlift : ∀ e, distLoop name A
        { name := name ++ "-wan-0",
          routed_vlans := [⟨⟨1, vlanNet 1⟩, (vlanNet 1).base + 1⟩],
          routing_table := [] } 0 D 1 = .error e →
        mkSite name D A 0 = .error e := by
      intro e hdl
      simp [mkSite, hsw, hdl]
    rcases hDA with hD | ⟨hD1, hA⟩
    · by_cases hA : A ≤ 254
      · refine hlift _ (distLoop_indexError_atEnd name A ⟨1, vlanNet 1⟩
          ((vlanNet 1).base + 1) (vlanNet_prefixLen 1) hA D _ [] 0 1 rfl
          (by omega) (by omega) ?_)
        have hmul : (255 - 0) * (1 + A) ≤ 255 * 255 :=
          Nat.mul_le_mul (by omega) (by omega)
        omega
      · exact hlift _ (distLoop_indexError_bigA name A ⟨1, vlanNet 1⟩
          ((vlanNet 1).base + 1) (vlanNet_prefixLen 1) (by omega) D _ [] 0 1 rfl
          (by omega) (by omega) (by omega))
    · exact hlift _ (distLoop_indexError_bigA name A ⟨1, vlanNet 1⟩
        ((vlanNet 1).base + 1) (vlanNet_prefixLen 1) hA D _ [] 0 1 rfl
        (by omega) (by omega) hD1)
  · intro A hA
    have hmul : 254 * (1 + A) ≤ 254 * 255 := Nat.mul_le_mul_left _ (by omega)
    have hmk := @mkSite_ok_of name 254 A 0 (by omega) hA (by omega)
    refine ⟨_, _, hmk, ?_⟩
    simp [expSite, expDistribution, uplinkRV, ownRV, List.getD_eq_getElem?_getD,
      List.getElem?_map, List.getElem?_range, List.getD_cons_succ, List.getD_cons_zero]
  · have hmk := @mkSite_ok_of name 1 254 0 (by omega) (by omega) (by omega)
    refine ⟨_, _, hmk, ?_⟩
    simp [expSite, expDistribution, expAccess, uplinkRVs, ownRV, Distribution.toSwitch,
      List.getD_eq_getElem?_getD, List.getElem?_map, List.getElem?_range,
      List.getD_cons_succ, List.getD_cons_zero]

/-- Claim C10, witness: the amended statement evaluated at the concrete
boundary counts 255, 254 and (1, 254). -/
theorem c10_witness :
    mkSite "lab" 255 0 0 = .error .indexError ∧
    (∃ s c', mkSite "lab" 254 0 0 = .ok (s, c') ∧
        (uplinkRV (s.distributions.getD 253 dummyDist)).ip_address =
          (ownRV s.wan).vlan.network.base + 255) ∧
    (∃ s c', mkSite "lab" 1 254 0 = .ok (s, c') ∧
        (uplinkRVs ((s.distributions.getD 0 dummyDist).accesses.getD 253 dummySwitch)).ip_address =
          (ownRV (Distribution.toSwitch (s.distributions.getD 0 dummyDist))).vlan.network.base + 255) :=
  ⟨(c10_uplink_boundary "lab").1 255 0 (Or.inl (by omega)),
   (c10_uplink_boundary "lab").2.1 0 (by omega),
   (c10_uplink_boundary "lab").2.2⟩

end LazyNetGen
